import Mathlib

/-!
Shallow embedding of src/ValkyriaChroniclesPatch.py.

The program is a one-shot binary patcher: it parses space-separated hex
signatures into byte buffers (parse_signature), computes a replacement
pattern from a configured resolution and the desktop resolution (the body
of patch, lines 185 to 198), and searches and overwrites the first
occurrence of a search pattern inside the executable image (edit_exe).

Python-specific behaviour that matters and is embedded faithfully:
- int(token, 16) accepts an optional sign, an optional 0x or 0X base
  marker, and hexadecimal digits with single underscores between digits;
  any other input raises ValueError.
- bytes(list) raises ValueError when an element is negative or above 255.
- int.to_bytes(4, little, unsigned) raises OverflowError when the value is
  negative or at least 2 ^ 32.
- int(x / 2) performs float division and then truncates toward zero; for
  the integer ranges that fit in a float mantissa (all realistic
  resolutions) this is exactly truncating integer division, Int.tdiv.
- str.split() with no argument splits on runs of whitespace and drops
  empty pieces; str.strip() removes whitespace from both ends.
- edit_exe never executes a return statement on the success path, so the
  function returns None there; the only explicit return is the
  return None in the pattern-not-found branch.
Byte buffers are modelled as List Nat with entries below 256, file contents
as List Nat, and raised exceptions as an Except error value.
-/

namespace Valkyria

/-- Value of one hexadecimal digit character as accepted by the Python
int parser: 0 to 9, a to f, A to F. -/
def hexDigit? (c : Char) : Option Nat :=
  if '0' ≤ c ∧ c ≤ '9' then some (c.toNat - '0'.toNat)
  else if 'a' ≤ c ∧ c ≤ 'f' then some (c.toNat - 'a'.toNat + 10)
  else if 'A' ≤ c ∧ c ≤ 'F' then some (c.toNat - 'A'.toNat + 10)
  else none

/-- Test that an underscore inside a numeral is followed by a digit, the
Python rule that forbids trailing and doubled underscores. -/
def underscoreOk (cs : List Char) : Bool :=
  match cs with
  | [] => false
  | c2 :: _ => (hexDigit? c2).isSome

/-- Remaining digits of a hex numeral, with Python underscore rules: an
underscore must sit between two digits (never trailing, never doubled). -/
def hexTail : List Char → Nat → Option Nat
  | [], acc => some acc
  | c :: cs, acc =>
    match hexDigit? c with
    | some d => hexTail cs (acc * 16 + d)
    | none => if c = '_' && underscoreOk cs then hexTail cs acc else none

/-- Digits of a hex numeral: at least one digit, which must come first. -/
def hexBody : List Char → Option Nat
  | [] => none
  | c :: cs =>
    match hexDigit? c with
    | some d => hexTail cs d
    | none => none

/-- Drop a single leading underscore, as Python permits right after the
0x base marker. -/
def stripUnderscore (cs : List Char) : List Char :=
  match cs with
  | [] => []
  | c :: rest => if c = '_' then rest else cs

/-- Unsigned part of the Python int(s, 16) parser: an optional 0x or 0X
marker, then the digits. -/
def pyIntHexCore (cs : List Char) : Option Nat :=
  match cs with
  | c0 :: c1 :: rest =>
    if c0 = '0' ∧ (c1 = 'x' ∨ c1 = 'X') then hexBody (stripUnderscore rest)
    else hexBody cs
  | _ => hexBody cs

/-- Python int(s, 16) on a whitespace-free string: optional sign, then the
unsigned hex numeral; none models a raised ValueError. -/
def pyIntHexList (cs : List Char) : Option Int :=
  match cs with
  | [] => none
  | c :: rest =>
    if c = '+' then (pyIntHexCore rest).map Int.ofNat
    else if c = '-' then (pyIntHexCore rest).map (fun n => -(n : Int))
    else (pyIntHexCore cs).map Int.ofNat

/-- Python int(s, 16) on a string. Tokens produced by str.split() never
contain whitespace, so the surrounding-whitespace tolerance of int is
irrelevant here. -/
def pyIntHex (s : String) : Option Int :=
  pyIntHexList s.data

/-- Whitespace splitter on character lists, accumulator style: cur holds
the current token reversed. -/
def splitWsAux : List Char → List Char → List (List Char)
  | [], cur => if cur = [] then [] else [cur.reverse]
  | c :: cs, cur =>
    if c.isWhitespace then
      if cur = [] then splitWsAux cs [] else cur.reverse :: splitWsAux cs []
    else splitWsAux cs (c :: cur)

/-- Groups of non-whitespace characters, in order. -/
def splitWs (cs : List Char) : List (List Char) :=
  splitWsAux cs []

/-- Python str.split() with no arguments: split on runs of whitespace and
drop empty pieces. -/
def pySplit (s : String) : List String :=
  (splitWs s.data).map (fun l => String.mk l)

/-- Python str.strip(): remove whitespace from both ends. -/
def pyStrip (s : String) : String :=
  String.mk (((s.data.dropWhile Char.isWhitespace).reverse.dropWhile
    Char.isWhitespace).reverse)

/-- Value of one token inside parse_signature, source lines 113 to 117:
the wildcard tokens are appended as 0, every other token goes through
int(token, 16); none models the ValueError int raises on bad input. -/
def tokenVal (t : String) : Option Int :=
  if t = "?" ∨ t = "??" then some 0 else pyIntHex t

/-- Values of all tokens of a signature, in order; none as soon as one
token fails to parse. -/
def parseTokens : List String → Option (List Int)
  | [] => some []
  | t :: ts =>
    match tokenVal t, parseTokens ts with
    | some v, some vs => some (v :: vs)
    | _, _ => none

/-- Range check done by the bytes(byte_array) constructor on source line
118: every element must lie in 0 to 255, else ValueError. -/
def bytesOk (vs : List Int) : Bool :=
  vs.all fun v => decide (0 ≤ v ∧ v < 256)

/-- Embedding of parse_signature, source lines 101 to 118: split the
signature on whitespace, decode wildcards to 0 and other tokens through
int(token, 16), and build a bytes object; none models the ValueError
raised either by int on a malformed token or by bytes on an out-of-range
value. -/
def parse_signature (signature : String) : Option (List Nat) :=
  match parseTokens (pySplit signature) with
  | some vs => if bytesOk vs then some (vs.map Int.toNat) else none
  | none => none

/-- Uppercase hexadecimal digit characters in value order, as produced by
the Python format specifier 02X. -/
def hexDigitsUpper : List Char :=
  ['0', '1', '2', '3', '4', '5', '6', '7', '8', '9', 'A', 'B', 'C', 'D', 'E', 'F']

/-- Uppercase hex character of a digit value below 16. -/
def hexChar (d : Nat) : Char :=
  hexDigitsUpper.getD d '0'

/-- Rendering of one byte by the format specifier 02X on source lines 193
to 196: two uppercase hex digits. -/
def byteToHex (b : Nat) : String :=
  String.mk [hexChar (b / 16), hexChar (b % 16)]

/-- Python join with a single space separator. -/
def joinSpace : List String → String
  | [] => ""
  | t :: ts =>
    match ts with
    | [] => t
    | _ :: _ => t ++ " " ++ joinSpace ts

/-- Embedding of the space-joined 02X rendering applied to each of the
four byte groups on source lines 193 to 196. -/
def bytesToHexStr (bs : List Nat) : String :=
  joinSpace (bs.map byteToHex)

/-- Embedding of int.to_bytes(4, little, unsigned) used on source lines
189 to 192: little-endian bytes for values in 0 to 2 ^ 32 - 1, none for
the OverflowError raised on a negative or too large value. -/
def toBytesLE4 (n : Int) : Option (List Nat) :=
  if 0 ≤ n ∧ n < 4294967296 then
    some [n.toNat % 256, n.toNat / 256 % 256, n.toNat / 65536 % 256,
      n.toNat / 16777216 % 256]
  else none

/-- Embedding of source lines 186 to 187: when the configured width or
height is 0, both dimensions are replaced by the desktop resolution. -/
def effectiveRes (cw ch dw dh : Int) : Int × Int :=
  if cw = 0 ∨ ch = 0 then (dw, dh) else (cw, ch)

/-- Embedding of source line 188, offset computation: int((desktop_width -
width) / 2) truncates the signed quotient toward zero, which is Int.tdiv
(exactly, whenever the difference fits in a float mantissa). -/
def offsetVal (width desktopWidth : Int) : Int :=
  Int.tdiv (desktopWidth - width) 2

/-- Embedding of the f-string on source line 198 assembling the
replacement pattern from the four rendered hex groups. -/
def assemblePattern (widthS specialS offsetS heightS : String) : String :=
  "B8" ++ " " ++ widthS ++ " " ++ "BB" ++ " " ++ specialS ++ " " ++ "B9" ++ " "
    ++ offsetS ++ " " ++ "BA" ++ " " ++ widthS ++ " " ++ "BE" ++ " " ++ heightS
    ++ " " ++ "BF" ++ " " ++ widthS ++ " " ++ "90"

/-- Embedding of the replacement-pattern computation inside patch, source
lines 185 to 198: substitute the desktop resolution for a zero
configuration, compute special = height shifted left by 4, encode the four
values as 4-byte little-endian unsigned integers, render them in hex and
assemble the pattern; none models an OverflowError from to_bytes. -/
def patch_compute (cw ch dw dh : Int) : Option String :=
  let wh := effectiveRes cw ch dw dh
  let width := wh.1
  let height := wh.2
  let offset := offsetVal width dw
  match toBytesLE4 (height * 16), toBytesLE4 width, toBytesLE4 height,
      toBytesLE4 offset with
  | some specialB, some widthB, some heightB, some offsetB =>
    some (assemblePattern (bytesToHexStr widthB) (bytesToHexStr specialB)
      (bytesToHexStr offsetB) (bytesToHexStr heightB))
  | _, _, _, _ => none

/-- Default search pattern hardcoded on source line 197. -/
def defaultSearchPattern : String :=
  "B8 39 8E E3 38 F7 E3 8B FA B8 39 8E E3 38"

/-- Lowest index at which pat occurs as a contiguous sublist of data, as
bytes.find returns it; none models the -1 result. -/
def findSublist (data pat : List Nat) : Option Nat :=
  (List.range (data.length + 1)).find? fun i => pat.isPrefixOf (data.drop i)

/-- Exceptions of the Python program that escape or matter to edit_exe. -/
inductive PyError where
  | indexError
  | valueError
  deriving DecidableEq, Repr

/-- State of the sidecar file patch.txt when edit_exe opens it: absent
raises FileNotFoundError (caught on line 143), ioError raises IOError
(caught on line 146), present carries the result of readlines(). -/
inductive SidecarInit where
  | absent
  | ioError
  | present (lines : List String)
  deriving DecidableEq, Repr

/-- Observable outcome of a run of edit_exe that raised no exception:
the value the function returns, the bytes of the game file afterwards,
the content written to patch.txt when a write happened, the offset
reported found when the pattern matched, and whether the
pattern-not-found diagnostic was printed. -/
structure EditOutcome where
  retval : Option Int
  data : List Nat
  sidecarWritten : Option String
  foundOffset : Option Nat
  notFoundReported : Bool
  deriving DecidableEq, Repr

/-- Effective search buffer after the patch.txt block on source lines 136
to 147: an empty readlines() result makes data[0] raise IndexError (not
caught: the handlers cover only FileNotFoundError and IOError); a first
line is stripped and parsed, a ValueError from that parse also escapes;
an absent file or an IO error leaves the default buffer in place. -/
def sidecarPattern (sidecar : SidecarInit) (sp1 : List Nat) :
    Except PyError (List Nat) :=
  match sidecar with
  | .present [] => .error .indexError
  | .present (l0 :: _) =>
    match parse_signature (pyStrip l0) with
    | some b => .ok b
    | none => .error .valueError
  | _ => .ok sp1

/-- Embedding of edit_exe, source lines 120 to 166, for a game file that
exists and is readable: strip and parse the default search pattern (line
132 to 133), parse the replacement (line 134), consult patch.txt (lines
136 to 147), search the file bytes for the first occurrence (line 152),
and either report not found and return None without writing (lines 153 to
156), or overwrite len(replacement) bytes at the found offset, record the
replacement in patch.txt, and fall off the end of the function, which also
returns None (lines 157 to 162). An error value models an uncaught
exception, raised before the game file is opened, so the file is
untouched in that case. -/
def edit_exe (sidecar : SidecarInit) (gameData : List Nat)
    (search_pattern replace_pattern : String) : Except PyError EditOutcome :=
  match parse_signature (pyStrip search_pattern) with
  | none => .error .valueError
  | some spDefault =>
    match parse_signature replace_pattern with
    | none => .error .valueError
    | some rp =>
      match sidecarPattern sidecar spDefault with
      | .error e => .error e
      | .ok sp1 =>
        match findSublist gameData sp1 with
        | none =>
          .ok { retval := none, data := gameData, sidecarWritten := none,
                foundOffset := none, notFoundReported := true }
        | some off =>
          .ok { retval := none,
                data := gameData.take off ++ rp ++ gameData.drop (off + rp.length),
                sidecarWritten := some replace_pattern,
                foundOffset := some off, notFoundReported := false }

/-- Wildcard test of source line 114. -/
def isWildcardTok (t : String) : Bool :=
  t = "?" || t = "??"

/-- Test whether a token is valid as a hexadecimal byte for this program:
int(token, 16) accepts it and the value fits in one byte. -/
def isHexByteTok (t : String) : Bool :=
  match pyIntHex t with
  | some v => decide (0 ≤ v ∧ v < 256)
  | none => false

/-- Byte value of a non-wildcard token that parses: the hex value of the
token, clamped through getD only for totality. -/
def tokByte (t : String) : Nat :=
  ((pyIntHex t).getD 0).toNat

/-- Token consisting of exactly two uppercase hexadecimal digit
characters, the canonical shape the 02X formatter of the program
produces. -/
def isUpperHexPair (t : String) : Bool :=
  match t.data with
  | [c1, c2] => decide (c1 ∈ hexDigitsUpper) && decide (c2 ∈ hexDigitsUpper)
  | _ => false

end Valkyria

deriving instance DecidableEq for Except

namespace Valkyria

theorem findSublist_spec (data pat : List Nat) (off : Nat)
    (h : findSublist data pat = some off) :
    off ≤ data.length ∧ pat.isPrefixOf (data.drop off) = true := by
  unfold findSublist at h
  have h1 := List.find?_some h
  have h2 := List.mem_of_find?_eq_some h
  rw [List.mem_range] at h2
  exact ⟨by omega, h1⟩

theorem effectiveRes_self (dw dh : Int) : effectiveRes dw dh dw dh = (dw, dh) := by
  unfold effectiveRes
  split <;> rfl

end Valkyria

namespace ValkyriaClaims

open Valkyria

/-- C1 (amended): the centering value computed on source line 188 is the
truncation toward zero of (desktop_width - width) / 2; this agrees with
the floor of that quotient whenever the configured width does not exceed
the desktop width, and whenever the computed value is negative the 4-byte
unsigned little-endian encoding on source line 192 raises OverflowError
(modelled as none) instead of producing the two-s-complement wraparound
bytes. -/
theorem C1_offset_trunc_and_negative_overflow (w dw : Int) :
    (w ≤ dw → offsetVal w dw = Int.fdiv (dw - w) 2)
    ∧ (offsetVal w dw < 0 → toBytesLE4 (offsetVal w dw) = none) := by
  constructor
  · intro h
    unfold offsetVal
    rw [Int.fdiv_eq_tdiv (by omega) (by norm_num)]
  · intro h
    unfold toBytesLE4
    rw [if_neg]
    omega

/-- C1 counterexample: with configured width 1921 and desktop width 1920
the code computes 0 while the floor of -1 / 2 is -1, and with configured
width 1922 the computed value -1 is not encoded as the wraparound bytes
FF FF FF FF because to_bytes raises instead. -/
theorem C1_counterexample :
    offsetVal 1921 1920 ≠ Int.fdiv ((1920 : Int) - 1921) 2
    ∧ toBytesLE4 (offsetVal 1922 1920) ≠ some [255, 255, 255, 255] := by
  refine ⟨by decide, by decide⟩

/-- C1 witness: concrete instances of the amended claim. -/
theorem C1_witness :
    offsetVal 1280 1920 = Int.fdiv ((1920 : Int) - 1280) 2
    ∧ toBytesLE4 (offsetVal 1922 1920) = none :=
  ⟨(C1_offset_trunc_and_negative_overflow 1280 1920).1 (by decide),
   (C1_offset_trunc_and_negative_overflow 1922 1920).2 (by decide)⟩

/-- C2: whenever all four 4-byte encodings succeed, the replacement token
string assembled on source line 198 has exactly the field order B8 width
BB special B9 offset BA width BE height BF width 90, with each group
rendered as space-separated uppercase two-digit hex bytes. -/
theorem C2_field_order (cw ch dw dh w h : Int)
    (hwh : effectiveRes cw ch dw dh = (w, h))
    (specialB widthB heightB offsetB : List Nat)
    (hsp : toBytesLE4 (h * 16) = some specialB)
    (hw : toBytesLE4 w = some widthB)
    (hh : toBytesLE4 h = some heightB)
    (ho : toBytesLE4 (offsetVal w dw) = some offsetB) :
    patch_compute cw ch dw dh =
      some ("B8" ++ " " ++ bytesToHexStr widthB ++ " " ++ "BB" ++ " "
        ++ bytesToHexStr specialB ++ " " ++ "B9" ++ " " ++ bytesToHexStr offsetB
        ++ " " ++ "BA" ++ " " ++ bytesToHexStr widthB ++ " " ++ "BE" ++ " "
        ++ bytesToHexStr heightB ++ " " ++ "BF" ++ " " ++ bytesToHexStr widthB
        ++ " " ++ "90") := by
  simp only [patch_compute, hwh]
  rw [hsp, hw, hh, ho]
  rfl

/-- C2 witness: for configured 5120 by 1440 on a 5120 by 1440 desktop the
assembled pattern is exactly the documented string, with special equal to
1440 shifted left by 4. -/
theorem C2_witness :
    patch_compute 5120 1440 5120 1440 =
      some "B8 00 14 00 00 BB 00 5A 00 00 B9 00 00 00 00 BA 00 14 00 00 BE A0 05 00 00 BF 00 14 00 00 90" := by
  rw [C2_field_order 5120 1440 5120 1440 5120 1440 (by decide)
    [0, 90, 0, 0] [0, 20, 0, 0] [160, 5, 0, 0] [0, 0, 0, 0]
    (by decide) (by decide) (by decide) (by decide)]
  rfl

/-- C7: when the configured width or height is 0, source lines 186 to 187
substitute the desktop resolution for both dimensions, so the whole
computation coincides with one configured at the desktop resolution, and
the centering offset of the substituted width against the desktop width
is 0. -/
theorem C7_zero_uses_desktop (cw ch dw dh : Int) (h0 : cw = 0 ∨ ch = 0) :
    effectiveRes cw ch dw dh = (dw, dh)
    ∧ patch_compute cw ch dw dh = patch_compute dw dh dw dh
    ∧ offsetVal dw dw = 0 := by
  have he : effectiveRes cw ch dw dh = (dw, dh) := by
    unfold effectiveRes
    rw [if_pos h0]
  refine ⟨he, ?_, ?_⟩
  · simp only [patch_compute, he, effectiveRes_self]
  · unfold offsetVal
    simp

/-- C7 witness: configured 0 by 0 on a 1920 by 1080 desktop substitutes
the desktop pair and yields offset 0. -/
theorem C7_witness :
    effectiveRes 0 0 1920 1080 = (1920, 1080)
    ∧ patch_compute 0 0 1920 1080 = patch_compute 1920 1080 1920 1080
    ∧ offsetVal 1920 1920 = 0 :=
  C7_zero_uses_desktop 0 0 1920 1080 (Or.inl rfl)

/-- C10: when patch.txt exists but readlines gives no lines, edit_exe
raises IndexError at the data[0] read on source line 140, before the game
file is opened, searched or written; the handlers there catch only
FileNotFoundError and IOError, so the exception escapes. -/
theorem C10_empty_sidecar_index_error (gameData : List Nat) (s r : String)
    (spd rp : List Nat)
    (hs : parse_signature (pyStrip s) = some spd)
    (hr : parse_signature r = some rp) :
    edit_exe (.present []) gameData s r = .error .indexError := by
  simp only [edit_exe, hs, hr, sidecarPattern]

/-- C10 witness: the empty sidecar raises IndexError on a concrete file
with the default patterns of the program. -/
theorem C10_witness :
    edit_exe (.present []) [1, 2, 3] defaultSearchPattern "90" =
      .error .indexError :=
  C10_empty_sidecar_index_error [1, 2, 3] defaultSearchPattern "90"
    [184, 57, 142, 227, 56, 247, 227, 139, 250, 184, 57, 142, 227, 56] [144]
    (by decide) (by decide)

/-- C4 (divergence witness): on a file that begins with the default
search pattern, edit_exe finds the pattern at offset 0 and writes the
replacement there, yet its returned value is None, because the success
path of the source falls off the end of the function without a return
statement, contradicting the documented contract that the byte offset of
the match is returned. -/
theorem C4_success_returns_none :
    edit_exe .absent
      [184, 57, 142, 227, 56, 247, 227, 139, 250, 184, 57, 142, 227, 56]
      defaultSearchPattern "90 90" =
    .ok { retval := none,
          data := [144, 144, 142, 227, 56, 247, 227, 139, 250, 184, 57, 142, 227, 56],
          sidecarWritten := some "90 90",
          foundOffset := some 0,
          notFoundReported := false } := by
  decide

/-- C5: when the effective search buffer does not occur in the file
bytes, edit_exe prints the pattern-not-found diagnostic, returns None,
writes nothing to the sidecar, and leaves the file contents byte-for-byte
unchanged, per source lines 152 to 156. -/
theorem C5_not_found_no_write (sidecar : SidecarInit) (gameData : List Nat)
    (s r : String) (spd rp sp1 : List Nat)
    (hs : parse_signature (pyStrip s) = some spd)
    (hr : parse_signature r = some rp)
    (hside : sidecarPattern sidecar spd = .ok sp1)
    (hnot : findSublist gameData sp1 = none) :
    edit_exe sidecar gameData s r =
      .ok { retval := none, data := gameData, sidecarWritten := none,
            foundOffset := none, notFoundReported := true } := by
  simp only [edit_exe, hs, hr, hside, hnot]

/-- C5 witness: a concrete three-byte file without the default pattern is
left unchanged and reported not found. -/
theorem C5_witness :
    edit_exe .absent [1, 2, 3] defaultSearchPattern "90" =
      .ok { retval := none, data := [1, 2, 3], sidecarWritten := none,
            foundOffset := none, notFoundReported := true } :=
  C5_not_found_no_write .absent [1, 2, 3] defaultSearchPattern "90"
    [184, 57, 142, 227, 56, 247, 227, 139, 250, 184, 57, 142, 227, 56] [144]
    [184, 57, 142, 227, 56, 247, 227, 139, 250, 184, 57, 142, 227, 56]
    (by decide) (by decide) (by decide) (by decide)

/-- C6: when the effective search buffer first occurs at a given offset,
edit_exe replaces exactly the bytes of the replacement buffer starting at
that offset and every byte outside that range keeps its previous value,
per source lines 157 to 159. -/
theorem C6_overwrite_frame (sidecar : SidecarInit) (gameData : List Nat)
    (s r : String) (spd rp sp1 : List Nat) (off : Nat)
    (hs : parse_signature (pyStrip s) = some spd)
    (hr : parse_signature r = some rp)
    (hside : sidecarPattern sidecar spd = .ok sp1)
    (hfind : findSublist gameData sp1 = some off) :
    edit_exe sidecar gameData s r =
      .ok { retval := none,
            data := gameData.take off ++ rp ++ gameData.drop (off + rp.length),
            sidecarWritten := some r, foundOffset := some off,
            notFoundReported := false }
    ∧ (∀ j, j < rp.length →
        (gameData.take off ++ rp ++ gameData.drop (off + rp.length)).getD
          (off + j) 0 = rp.getD j 0)
    ∧ (∀ i, i < off →
        (gameData.take off ++ rp ++ gameData.drop (off + rp.length)).getD
          i 0 = gameData.getD i 0)
    ∧ (∀ i, off + rp.length ≤ i →
        (gameData.take off ++ rp ++ gameData.drop (off + rp.length)).getD
          i 0 = gameData.getD i 0) := by
  have hoff : off ≤ gameData.length := (findSublist_spec _ _ _ hfind).1
  have hlen : (gameData.take off).length = off := by
    rw [List.length_take]
    omega
  have hlen2 : (gameData.take off ++ rp).length = off + rp.length := by
    rw [List.length_append, hlen]
  refine ⟨?_, ?_, ?_, ?_⟩
  · simp only [edit_exe, hs, hr, hside, hfind]
  · intro j hj
    rw [List.getD_append _ _ _ _ (by omega)]
    rw [List.getD_append_right _ _ _ _ (by omega)]
    rw [hlen, Nat.add_sub_cancel_left]
  · intro i hi
    rw [List.getD_append _ _ _ _ (by omega)]
    rw [List.getD_append _ _ _ _ (by omega)]
    simp [List.getD_eq_getElem?_getD, List.getElem?_take, hi]
  · intro i hi
    rw [List.getD_append_right _ _ _ _ (by omega)]
    rw [hlen2]
    simp only [List.getD_eq_getElem?_getD, List.getElem?_drop]
    have h3 : off + rp.length + (i - (off + rp.length)) = i := by omega
    rw [h3]

/-- C6 witness: on a concrete file beginning with the default pattern,
the two replacement bytes land at offset 0 and the remaining bytes are
unchanged. -/
theorem C6_witness :
    edit_exe .absent
      [184, 57, 142, 227, 56, 247, 227, 139, 250, 184, 57, 142, 227, 56]
      defaultSearchPattern "90 91" =
    .ok { retval := none,
          data := [144, 145, 142, 227, 56, 247, 227, 139, 250, 184, 57, 142, 227, 56],
          sidecarWritten := some "90 91", foundOffset := some 0,
          notFoundReported := false } := by
  rw [(C6_overwrite_frame .absent
    [184, 57, 142, 227, 56, 247, 227, 139, 250, 184, 57, 142, 227, 56]
    defaultSearchPattern "90 91"
    [184, 57, 142, 227, 56, 247, 227, 139, 250, 184, 57, 142, 227, 56]
    [144, 145]
    [184, 57, 142, 227, 56, 247, 227, 139, 250, 184, 57, 142, 227, 56]
    0 (by decide) (by decide) (by decide) (by decide)).1]
  rfl

end ValkyriaClaims

namespace Valkyria

theorem tokenVal_some (t : String) (v : Int) (h : tokenVal t = some v) :
    (isWildcardTok t = true ∧ v = 0)
    ∨ (isWildcardTok t = false ∧ pyIntHex t = some v) := by
  unfold tokenVal at h
  by_cases hw : t = "?" ∨ t = "??"
  · left
    rw [if_pos hw] at h
    refine ⟨?_, by injection h with h2; omega⟩
    rcases hw with h1 | h1 <;> simp [isWildcardTok, h1]
  · right
    rw [if_neg hw] at h
    refine ⟨?_, h⟩
    push_neg at hw
    simp [isWildcardTok, hw.1, hw.2]

theorem tokenVal_none (t : String) (h : tokenVal t = none) :
    isWildcardTok t = false ∧ pyIntHex t = none := by
  unfold tokenVal at h
  by_cases hw : t = "?" ∨ t = "??"
  · rw [if_pos hw] at h
    cases h
  · rw [if_neg hw] at h
    push_neg at hw
    exact ⟨by simp [isWildcardTok, hw.1, hw.2], h⟩

theorem parseTokens_char (ts : List String) :
    parseTokens ts =
      if ts.all fun t => (tokenVal t).isSome
      then some (ts.map fun t => (tokenVal t).getD 0)
      else none := by
  induction ts with
  | nil => rfl
  | cons t ts ih =>
    simp only [parseTokens, List.all_cons, List.map_cons, ih]
    cases htv : tokenVal t with
    | none => simp
    | some v =>
      by_cases h : (ts.all fun t => (tokenVal t).isSome) = true
      · simp [h, htv]
      · simp only [Bool.not_eq_true] at h
        simp [h, htv]

theorem goodTok_eq (t : String) :
    (isWildcardTok t || isHexByteTok t)
    = ((tokenVal t).isSome
        && decide (0 ≤ (tokenVal t).getD 0 ∧ (tokenVal t).getD 0 < 256)) := by
  by_cases hw : t = "?" ∨ t = "??"
  · have h1 : tokenVal t = some 0 := by simp [tokenVal, hw]
    have h2 : isWildcardTok t = true := by
      rcases hw with h | h <;> simp [isWildcardTok, h]
    rw [h1, h2]
    rfl
  · have h1 : tokenVal t = pyIntHex t := by simp [tokenVal, hw]
    push_neg at hw
    have h2 : isWildcardTok t = false := by simp [isWildcardTok, hw.1, hw.2]
    rw [h1, h2, Bool.false_or]
    unfold isHexByteTok
    cases hp : pyIntHex t with
    | none => rfl
    | some v => rfl

theorem tokValue_eq (t : String) :
    ((tokenVal t).getD 0).toNat
    = if isWildcardTok t = true then 0 else tokByte t := by
  by_cases hw : t = "?" ∨ t = "??"
  · have h1 : tokenVal t = some 0 := by simp [tokenVal, hw]
    have h2 : isWildcardTok t = true := by
      rcases hw with h | h <;> simp [isWildcardTok, h]
    rw [h1, h2]
    rfl
  · have h1 : tokenVal t = pyIntHex t := by simp [tokenVal, hw]
    push_neg at hw
    have h2 : isWildcardTok t = false := by simp [isWildcardTok, hw.1, hw.2]
    rw [h1, h2]
    rfl

theorem list_all_and (l : List String) (p q : String → Bool) :
    (l.all fun x => p x && q x) = (l.all p && l.all q) := by
  induction l with
  | nil => rfl
  | cons a l ih =>
    simp only [List.all_cons, ih]
    cases p a <;> cases q a <;> cases l.all p <;> cases l.all q <;> rfl

theorem list_all_map (l : List String) (f : String → Int) (p : Int → Bool) :
    (l.map f).all p = l.all fun t => p (f t) := by
  induction l with
  | nil => rfl
  | cons a l ih => simp only [List.map_cons, List.all_cons, ih]

theorem parse_signature_char (s : String) :
    parse_signature s =
      if (pySplit s).all fun t => isWildcardTok t || isHexByteTok t
      then some ((pySplit s).map fun t => if isWildcardTok t = true then 0 else tokByte t)
      else none := by
  unfold parse_signature
  rw [parseTokens_char]
  have hgood : (fun t => isWildcardTok t || isHexByteTok t)
      = (fun t => (tokenVal t).isSome
          && decide (0 ≤ (tokenVal t).getD 0 ∧ (tokenVal t).getD 0 < 256)) :=
    funext goodTok_eq
  rw [hgood, list_all_and]
  have hc : bytesOk ((pySplit s).map fun t => (tokenVal t).getD 0)
      = ((pySplit s).all
          fun t => decide (0 ≤ (tokenVal t).getD 0 ∧ (tokenVal t).getD 0 < 256)) := by
    unfold bytesOk
    exact list_all_map (pySplit s) _ _
  have hv : List.map Int.toNat ((pySplit s).map fun t => (tokenVal t).getD 0)
      = (pySplit s).map fun t => if isWildcardTok t = true then 0 else tokByte t := by
    rw [List.map_map]
    exact List.map_congr_left fun t _ => tokValue_eq t
  by_cases ha : ((pySplit s).all fun t => (tokenVal t).isSome) = true
  · rw [if_pos ha]
    dsimp only
    rw [hc]
    by_cases hb : ((pySplit s).all
        fun t => decide (0 ≤ (tokenVal t).getD 0 ∧ (tokenVal t).getD 0 < 256)) = true
    · have hab : (((pySplit s).all fun t => (tokenVal t).isSome)
          && ((pySplit s).all
            fun t => decide (0 ≤ (tokenVal t).getD 0 ∧ (tokenVal t).getD 0 < 256))) = true := by
        rw [ha, hb]
        rfl
      rw [if_pos hb, if_pos hab, hv]
    · have hab : ¬((((pySplit s).all fun t => (tokenVal t).isSome)
          && ((pySplit s).all
            fun t => decide (0 ≤ (tokenVal t).getD 0 ∧ (tokenVal t).getD 0 < 256))) = true) := by
        rw [ha, Bool.true_and]
        exact hb
      rw [if_neg hb, if_neg hab]
  · rw [if_neg ha]
    have hab : ¬((((pySplit s).all fun t => (tokenVal t).isSome)
        && ((pySplit s).all
          fun t => decide (0 ≤ (tokenVal t).getD 0 ∧ (tokenVal t).getD 0 < 256))) = true) :=
      fun h => ha ((Bool.and_eq_true _ _).mp h).1
    rw [if_neg hab]

end Valkyria

namespace ValkyriaClaims

open Valkyria

/-- C8: parse_signature decodes each wildcard token to byte 0 and each
other token as the value int(token, 16) yields, and it fails exactly when
some non-wildcard token is not valid as a hexadecimal byte, that is, when
int rejects it or its value does not fit in one byte. -/
theorem C8_wildcards_and_failure (s : String) :
    (parse_signature s = none
      ↔ ∃ t ∈ pySplit s, isWildcardTok t = false ∧ isHexByteTok t = false)
    ∧ (∀ bs, parse_signature s = some bs →
        bs = (pySplit s).map fun t => if isWildcardTok t = true then 0 else tokByte t) := by
  rw [parse_signature_char s]
  by_cases hall : ((pySplit s).all fun t => isWildcardTok t || isHexByteTok t) = true
  · rw [hall, if_pos rfl]
    constructor
    · constructor
      · intro h
        cases h
      · rintro ⟨t, hmem, hw, hx⟩
        have := List.all_eq_true.mp hall t hmem
        rw [hw, hx] at this
        cases this
    · intro bs h
      injection h with h2
      exact h2.symm
  · simp only [Bool.not_eq_true] at hall
    rw [hall, if_neg (by simp)]
    constructor
    · constructor
      · intro _
        rcases List.all_eq_false.mp hall with ⟨t, hmem, hbad⟩
        rw [Bool.not_eq_true, Bool.or_eq_false_iff] at hbad
        exact ⟨t, hmem, hbad.1, hbad.2⟩
      · intro _
        rfl
    · intro bs h
      cases h

/-- C8 witness: the token ZZ is rejected, and B8 followed by a wildcard
decodes to bytes 184 then 0. -/
theorem C8_witness :
    parse_signature "B8 ZZ" = none
    ∧ [184, 0] = ((pySplit "B8 ??").map
        fun t => if isWildcardTok t = true then 0 else tokByte t) :=
  ⟨(C8_wildcards_and_failure "B8 ZZ").1.mpr ⟨"ZZ", by decide, by decide, by decide⟩,
   (C8_wildcards_and_failure "B8 ??").2 [184, 0] (by decide)⟩

end ValkyriaClaims

namespace Valkyria

theorem data_append (s t : String) : (s ++ t).data = s.data ++ t.data := rfl

theorem splitWsAux_append_space (a : List Char) :
    ∀ cur b : List Char,
      splitWsAux (a ++ ' ' :: b) cur = splitWsAux a cur ++ splitWsAux b [] := by
  have hsp : (' ').isWhitespace = true := rfl
  induction a with
  | nil =>
    intro cur b
    by_cases hcur : cur = []
    · simp [splitWsAux, hsp, hcur]
    · simp [splitWsAux, hsp, hcur]
  | cons c a ih =>
    intro cur b
    simp only [List.cons_append, splitWsAux]
    by_cases hw : c.isWhitespace
    · by_cases hcur : cur = []
      · simp [hw, hcur, ih]
      · simp [hw, hcur, ih]
    · simp [hw, ih]

theorem splitWsAux_single (t : List Char) :
    ∀ cur : List Char, (∀ c ∈ t, c.isWhitespace = false) →
      (cur = [] → t ≠ []) →
      splitWsAux t cur = [cur.reverse ++ t] := by
  induction t with
  | nil =>
    intro cur _ hne
    have hc : ¬cur = [] := fun hc => hne hc rfl
    simp [splitWsAux, hc]
  | cons c t ih =>
    intro cur h _
    have hw : c.isWhitespace = false := h c (by simp)
    simp only [splitWsAux, hw, Bool.false_eq_true, if_false]
    rw [ih (c :: cur) (fun x hx => h x (List.mem_cons_of_mem _ hx))
      (by intro hc; cases hc)]
    simp

theorem splitWs_single (t : List Char) (hne : t ≠ [])
    (h : ∀ c ∈ t, c.isWhitespace = false) : splitWs t = [t] := by
  unfold splitWs
  rw [splitWsAux_single t [] h (fun _ => hne)]
  simp

theorem pySplit_glue (s t : String) :
    pySplit (s ++ " " ++ t) = pySplit s ++ pySplit t := by
  unfold pySplit
  have hdata : (s ++ " " ++ t).data = s.data ++ ' ' :: t.data := by
    rw [data_append, data_append]
    rw [List.append_assoc]
    rfl
  rw [hdata]
  unfold splitWs
  rw [splitWsAux_append_space]
  simp

theorem pySplit_single (t : String) (hne : t.data ≠ [])
    (h : ∀ c ∈ t.data, c.isWhitespace = false) : pySplit t = [t] := by
  unfold pySplit
  rw [splitWs_single t.data hne h]
  rfl

theorem pySplit_joinSpace (ts : List String)
    (h : ∀ t ∈ ts, t.data ≠ [] ∧ ∀ c ∈ t.data, c.isWhitespace = false) :
    pySplit (joinSpace ts) = ts := by
  induction ts with
  | nil => rfl
  | cons t ts ih =>
    cases ts with
    | nil => exact pySplit_single t (h t (by simp)).1 (h t (by simp)).2
    | cons u ts2 =>
      have hglue : joinSpace (t :: u :: ts2) = t ++ " " ++ joinSpace (u :: ts2) := rfl
      rw [hglue, pySplit_glue,
        pySplit_single t (h t (by simp)).1 (h t (by simp)).2,
        ih (fun x hx => h x (List.mem_cons_of_mem _ hx))]
      rfl

set_option maxRecDepth 4000 in
theorem byteToHex_facts : ∀ b : Nat, b < 256 →
    tokenVal (byteToHex b) = some (Int.ofNat b)
    ∧ (byteToHex b).data ≠ []
    ∧ (∀ c ∈ (byteToHex b).data, c.isWhitespace = false) := by decide

theorem pySplit_bytesToHexStr (bs : List Nat) (h : ∀ b ∈ bs, b < 256) :
    pySplit (bytesToHexStr bs) = bs.map byteToHex := by
  unfold bytesToHexStr
  refine pySplit_joinSpace _ ?_
  intro t ht
  rw [List.mem_map] at ht
  obtain ⟨b, hb, rfl⟩ := ht
  exact ⟨(byteToHex_facts b (h b hb)).2.1, (byteToHex_facts b (h b hb)).2.2⟩

theorem parseTokens_append_some (a : List String) :
    ∀ (b : List String) (u v : List Int),
      parseTokens a = some u → parseTokens b = some v →
      parseTokens (a ++ b) = some (u ++ v) := by
  induction a with
  | nil =>
    intro b u v ha hb
    injection ha with ha2
    subst ha2
    simpa using hb
  | cons t a ih =>
    intro b u v ha hb
    simp only [parseTokens] at ha
    cases htv : tokenVal t with
    | none => rw [htv] at ha; cases ha
    | some w =>
      rw [htv] at ha
      cases hpa : parseTokens a with
      | none => rw [hpa] at ha; cases ha
      | some us =>
        rw [hpa] at ha
        injection ha with ha2
        subst ha2
        have hab := ih b us v hpa hb
        simp only [List.cons_append, parseTokens, htv]
        rw [show List.append a b = a ++ b from rfl, hab]

theorem parseTokens_hexBytes (bs : List Nat) (h : ∀ b ∈ bs, b < 256) :
    parseTokens (bs.map byteToHex) = some (bs.map Int.ofNat) := by
  induction bs with
  | nil => rfl
  | cons b bs ih =>
    have htv := (byteToHex_facts b (h b (by simp))).1
    simp only [List.map_cons, parseTokens, htv,
      ih (fun x hx => h x (List.mem_cons_of_mem _ hx))]

theorem bytesOk_append (u v : List Int) :
    bytesOk (u ++ v) = (bytesOk u && bytesOk v) := by
  unfold bytesOk
  exact List.all_append

theorem bytesOk_ofNat (bs : List Nat) (h : ∀ b ∈ bs, b < 256) :
    bytesOk (bs.map Int.ofNat) = true := by
  unfold bytesOk
  rw [List.all_eq_true]
  intro v hv
  rw [List.mem_map] at hv
  obtain ⟨b, hb, rfl⟩ := hv
  have := h b hb
  rw [decide_eq_true_eq]
  have h2 : Int.ofNat b = (b : Int) := rfl
  rw [h2]
  omega

theorem toNat_ofNat_map (bs : List Nat) :
    (bs.map Int.ofNat).map Int.toNat = bs := by
  induction bs with
  | nil => rfl
  | cons b bs ih =>
    simp only [List.map_cons, ih]
    rfl

theorem parse_assembled (wB sB oB hB : List Nat)
    (hw : ∀ b ∈ wB, b < 256) (hs : ∀ b ∈ sB, b < 256)
    (ho : ∀ b ∈ oB, b < 256) (hh : ∀ b ∈ hB, b < 256) :
    parse_signature (assemblePattern (bytesToHexStr wB) (bytesToHexStr sB)
        (bytesToHexStr oB) (bytesToHexStr hB))
    = some ([184] ++ wB ++ [187] ++ sB ++ [185] ++ oB ++ [186] ++ wB
        ++ [190] ++ hB ++ [191] ++ wB ++ [144]) := by
  have hsplit : pySplit (assemblePattern (bytesToHexStr wB) (bytesToHexStr sB)
      (bytesToHexStr oB) (bytesToHexStr hB))
      = ["B8"] ++ wB.map byteToHex ++ ["BB"] ++ sB.map byteToHex ++ ["B9"]
        ++ oB.map byteToHex ++ ["BA"] ++ wB.map byteToHex ++ ["BE"]
        ++ hB.map byteToHex ++ ["BF"] ++ wB.map byteToHex ++ ["90"] := by
    unfold assemblePattern
    simp only [pySplit_glue]
    rw [pySplit_bytesToHexStr wB hw, pySplit_bytesToHexStr sB hs,
      pySplit_bytesToHexStr oB ho, pySplit_bytesToHexStr hB hh]
    have h1 : pySplit "B8" = ["B8"] := rfl
    have h2 : pySplit "BB" = ["BB"] := rfl
    have h3 : pySplit "B9" = ["B9"] := rfl
    have h4 : pySplit "BA" = ["BA"] := rfl
    have h5 : pySplit "BE" = ["BE"] := rfl
    have h6 : pySplit "BF" = ["BF"] := rfl
    have h7 : pySplit "90" = ["90"] := rfl
    rw [h1, h2, h3, h4, h5, h6, h7]
  unfold parse_signature
  rw [hsplit]
  have hvals : parseTokens (["B8"] ++ wB.map byteToHex ++ ["BB"] ++ sB.map byteToHex
      ++ ["B9"] ++ oB.map byteToHex ++ ["BA"] ++ wB.map byteToHex ++ ["BE"]
      ++ hB.map byteToHex ++ ["BF"] ++ wB.map byteToHex ++ ["90"])
      = some ([(184 : Int)] ++ wB.map Int.ofNat ++ [187] ++ sB.map Int.ofNat
        ++ [185] ++ oB.map Int.ofNat ++ [186] ++ wB.map Int.ofNat ++ [190]
        ++ hB.map Int.ofNat ++ [191] ++ wB.map Int.ofNat ++ [144]) := by
    refine parseTokens_append_some _ _ _ _ ?_ rfl
    refine parseTokens_append_some _ _ _ _ ?_ (parseTokens_hexBytes wB hw)
    refine parseTokens_append_some _ _ _ _ ?_ rfl
    refine parseTokens_append_some _ _ _ _ ?_ (parseTokens_hexBytes hB hh)
    refine parseTokens_append_some _ _ _ _ ?_ rfl
    refine parseTokens_append_some _ _ _ _ ?_ (parseTokens_hexBytes wB hw)
    refine parseTokens_append_some _ _ _ _ ?_ rfl
    refine parseTokens_append_some _ _ _ _ ?_ (parseTokens_hexBytes oB ho)
    refine parseTokens_append_some _ _ _ _ ?_ rfl
    refine parseTokens_append_some _ _ _ _ ?_ (parseTokens_hexBytes sB hs)
    refine parseTokens_append_some _ _ _ _ ?_ rfl
    exact parseTokens_append_some _ _ _ _ rfl (parseTokens_hexBytes wB hw)
  rw [hvals]
  dsimp only
  have hok : bytesOk ([(184 : Int)] ++ wB.map Int.ofNat ++ [187] ++ sB.map Int.ofNat
      ++ [185] ++ oB.map Int.ofNat ++ [186] ++ wB.map Int.ofNat ++ [190]
      ++ hB.map Int.ofNat ++ [191] ++ wB.map Int.ofNat ++ [144]) = true := by
    simp only [bytesOk_append, bytesOk_ofNat wB hw, bytesOk_ofNat sB hs,
      bytesOk_ofNat oB ho, bytesOk_ofNat hB hh]
    rfl
  rw [hok]
  simp only [eq_self_iff_true, if_true, List.map_append, toNat_ofNat_map]
  rfl

end Valkyria

namespace Valkyria

theorem hexDigit?_absurd (c : Char) (d : Nat)
    (h : hexDigit? c = some d) (hn : hexDigit? c = none) : False := by
  rw [hn] at h
  cases h

theorem hexDigit?_ne (c : Char) (d : Nat) (h : hexDigit? c = some d) :
    c ≠ '+' ∧ c ≠ '-' ∧ c ≠ 'x' ∧ c ≠ 'X' ∧ c ≠ '_' ∧ c.isWhitespace = false := by
  refine ⟨?_, ?_, ?_, ?_, ?_, ?_⟩
  · rintro rfl
    exact hexDigit?_absurd _ _ h rfl
  · rintro rfl
    exact hexDigit?_absurd _ _ h rfl
  · rintro rfl
    exact hexDigit?_absurd _ _ h rfl
  · rintro rfl
    exact hexDigit?_absurd _ _ h rfl
  · rintro rfl
    exact hexDigit?_absurd _ _ h rfl
  · by_contra hw
    rw [Bool.not_eq_false, Char.isWhitespace] at hw
    rcases Bool.or_eq_true_iff.mp hw with hw2 | hn
    rotate_left
    · exact hexDigit?_absurd _ _ h
        (by have hc := decide_eq_true_eq.mp hn; subst hc; rfl)
    rcases Bool.or_eq_true_iff.mp hw2 with hw3 | hn
    rotate_left
    · exact hexDigit?_absurd _ _ h
        (by have hc := decide_eq_true_eq.mp hn; subst hc; rfl)
    rcases Bool.or_eq_true_iff.mp hw3 with hn | hn
    · exact hexDigit?_absurd _ _ h
        (by have hc := decide_eq_true_eq.mp hn; subst hc; rfl)
    · exact hexDigit?_absurd _ _ h
        (by have hc := decide_eq_true_eq.mp hn; subst hc; rfl)

theorem pyIntHex_pair (c1 c2 : Char) (d1 d2 : Nat)
    (h1 : hexDigit? c1 = some d1) (h2 : hexDigit? c2 = some d2) :
    pyIntHexList [c1, c2] = some (Int.ofNat (d1 * 16 + d2)) := by
  have hne1 := hexDigit?_ne c1 d1 h1
  have hne2 := hexDigit?_ne c2 d2 h2
  have hcore : pyIntHexCore [c1, c2] = some (d1 * 16 + d2) := by
    unfold pyIntHexCore
    dsimp only
    rw [if_neg (fun hc => hc.2.elim hne2.2.2.1 hne2.2.2.2.1)]
    unfold hexBody
    dsimp only
    rw [h1]
    simp only [hexTail, h2]
  unfold pyIntHexList
  dsimp only
  rw [if_neg hne1.1, if_neg hne1.2.1, hcore]
  rfl

theorem upperHex_char (c : Char) (h : c ∈ hexDigitsUpper) :
    ∃ d, hexDigit? c = some d ∧ d < 16 ∧ hexChar d = c := by
  fin_cases h <;> exact ⟨_, rfl, by decide, rfl⟩

theorem upperHex_not_ws : ∀ c ∈ hexDigitsUpper, c.isWhitespace = false := by
  decide

theorem upperHexPair_roundtrip (t : String) (h : isUpperHexPair t = true) :
    ∃ v : Nat, v < 256 ∧ tokenVal t = some (Int.ofNat v) ∧ byteToHex v = t := by
  unfold isUpperHexPair at h
  split at h
  case _ c1 c2 heq =>
    rw [Bool.and_eq_true] at h
    obtain ⟨d1, hd1, hd1lt, hc1⟩ := upperHex_char c1 (of_decide_eq_true h.1)
    obtain ⟨d2, hd2, hd2lt, hc2⟩ := upperHex_char c2 (of_decide_eq_true h.2)
    refine ⟨d1 * 16 + d2, by omega, ?_, ?_⟩
    · have hw : ¬(t = "?" ∨ t = "??") := by
        rintro (rfl | rfl)
        · rw [show ("?" : String).data = ['?'] from rfl] at heq
          cases heq
        · rw [show ("??" : String).data = ['?', '?'] from rfl] at heq
          injection heq with e1 _
          subst e1
          exact (hexDigit?_absurd _ _ hd1 rfl).elim
      unfold tokenVal
      rw [if_neg hw]
      unfold pyIntHex
      rw [heq]
      exact pyIntHex_pair c1 c2 d1 d2 hd1 hd2
    · unfold byteToHex
      have e1 : (d1 * 16 + d2) / 16 = d1 := by omega
      have e2 : (d1 * 16 + d2) % 16 = d2 := by omega
      rw [e1, e2, hc1, hc2, ← heq]
  case _ => cases h

theorem parse_upper_tokens (ts : List String)
    (h : ∀ t ∈ ts, isUpperHexPair t = true ∨ t = "?" ∨ t = "??") :
    ∃ vs : List Nat, parseTokens ts = some (vs.map Int.ofNat)
      ∧ (∀ b ∈ vs, b < 256)
      ∧ vs.map byteToHex = ts.map fun t => if t = "?" ∨ t = "??" then "00" else t := by
  induction ts with
  | nil => exact ⟨[], rfl, by simp, rfl⟩
  | cons t ts ih =>
    obtain ⟨vs, hvs, hlt, hmap⟩ := ih fun x hx => h x (List.mem_cons_of_mem _ hx)
    rcases h t (by simp) with hp | hwld
    · obtain ⟨v, hvlt, htv, hbt⟩ := upperHexPair_roundtrip t hp
      have hnw : ¬(t = "?" ∨ t = "??") := by
        rintro (rfl | rfl) <;> exact absurd hp (by decide)
      refine ⟨v :: vs, ?_, ?_, ?_⟩
      · simp only [parseTokens, htv, hvs, List.map_cons]
      · intro b hb
        rcases List.mem_cons.mp hb with rfl | hb2
        · exact hvlt
        · exact hlt b hb2
      · simp only [List.map_cons, hmap, if_neg hnw, hbt]
    · have htv : tokenVal t = some 0 := by simp [tokenVal, hwld]
      refine ⟨0 :: vs, ?_, ?_, ?_⟩
      · simp only [parseTokens, htv, hvs, List.map_cons]
        rfl
      · intro b hb
        rcases List.mem_cons.mp hb with rfl | hb2
        · omega
        · exact hlt b hb2
      · simp only [List.map_cons, hmap, if_pos hwld]
        rfl

end Valkyria

namespace ValkyriaClaims

open Valkyria

/-- C9 (amended): for a signature built from tokens that are each either
two uppercase hexadecimal digits or a wildcard, decoding with
parse_signature succeeds and re-encoding the bytes with the canonical
uppercase two-digit space-separated formatter of the program reproduces
the original string with every wildcard token replaced by 00. -/
theorem C9_roundtrip_upper (ts : List String)
    (h : ∀ t ∈ ts, isUpperHexPair t = true ∨ t = "?" ∨ t = "??") :
    ∃ bs, parse_signature (joinSpace ts) = some bs
      ∧ bytesToHexStr bs
        = joinSpace (ts.map fun t => if t = "?" ∨ t = "??" then "00" else t) := by
  have wf : ∀ t ∈ ts, t.data ≠ [] ∧ ∀ c ∈ t.data, c.isWhitespace = false := by
    intro t ht
    rcases h t ht with hp | rfl | rfl
    · unfold isUpperHexPair at hp
      split at hp
      case _ c1 c2 heq =>
        rw [Bool.and_eq_true] at hp
        rw [heq]
        refine ⟨by simp, ?_⟩
        intro c hc
        rcases List.mem_cons.mp hc with rfl | hc2
        · exact upperHex_not_ws c (of_decide_eq_true hp.1)
        · rcases List.mem_cons.mp hc2 with rfl | hc3
          · exact upperHex_not_ws c (of_decide_eq_true hp.2)
          · cases hc3
      case _ => cases hp
    · exact ⟨by decide, by decide⟩
    · exact ⟨by decide, by decide⟩
  obtain ⟨vs, hvs, hlt, hmap⟩ := parse_upper_tokens ts h
  refine ⟨vs, ?_, ?_⟩
  · unfold parse_signature
    rw [pySplit_joinSpace ts wf, hvs]
    dsimp only
    rw [bytesOk_ofNat vs hlt]
    simp only [eq_self_iff_true, if_true, toNat_ofNat_map]
  · unfold bytesToHexStr
    rw [hmap]

/-- C9 counterexample: the string ab consists of a single two-digit hex
token, decodes to byte 171, yet the canonical uppercase formatter renders
171 as AB, so decoding then re-encoding does not reproduce the original
lowercase string. -/
theorem C9_lowercase_counterexample :
    parse_signature "ab" = some [171]
    ∧ bytesToHexStr [171] = "AB"
    ∧ ("AB" : String) ≠ "ab" :=
  ⟨by decide, by decide, by decide⟩

/-- C9 witness: a concrete three-token signature with a wildcard round
trips with the wildcard canonicalized to 00. -/
theorem C9_witness :
    ∃ bs, parse_signature (joinSpace ["B8", "?", "0A"]) = some bs
      ∧ bytesToHexStr bs
        = joinSpace (["B8", "?", "0A"].map
            fun t => if t = "?" ∨ t = "??" then "00" else t) :=
  C9_roundtrip_upper ["B8", "?", "0A"] (by decide)

end ValkyriaClaims

namespace Valkyria

theorem toBytesLE4_bytes (n : Int) (bs : List Nat) (h : toBytesLE4 n = some bs) :
    bs.length = 4 ∧ ∀ b ∈ bs, b < 256 := by
  unfold toBytesLE4 at h
  split at h
  · injection h with h2
    subst h2
    refine ⟨rfl, ?_⟩
    intro b hb
    simp only [List.mem_cons, List.not_mem_nil, or_false] at hb
    rcases hb with rfl | rfl | rfl | rfl <;> omega
  · cases h

end Valkyria

namespace ValkyriaClaims

open Valkyria

/-- C3 (amended): in the actual invocation of the patcher the decoded
buffers are not equal in length on a first run: the replacement pattern
produced by the calculator always decodes to 31 bytes, while the default
search pattern decodes to 14 bytes, so the replacement is longer and
overwrites the 17 bytes that follow the matched prefix; the lengths agree
only when the sidecar file supplies a previously applied 31-byte
replacement as the search pattern. -/
theorem C3_replacement_31_search_14 (cw ch dw dh : Int) (s : String)
    (h : patch_compute cw ch dw dh = some s) :
    (parse_signature defaultSearchPattern).map List.length = some 14
    ∧ (parse_signature s).map List.length = some 31 := by
  refine ⟨by decide, ?_⟩
  unfold patch_compute at h
  dsimp only at h
  split at h
  · rename_i specialB widthB heightB offsetB hsp hwB hhB hoB
    injection h with h2
    subst h2
    have bw := toBytesLE4_bytes _ _ hwB
    have bsp := toBytesLE4_bytes _ _ hsp
    have bh := toBytesLE4_bytes _ _ hhB
    have bo := toBytesLE4_bytes _ _ hoB
    rw [parse_assembled widthB specialB offsetB heightB bw.2 bsp.2 bo.2 bh.2]
    simp [List.length_append, bw.1, bsp.1, bh.1, bo.1]
  · cases h

/-- C3 counterexample: for the configuration 5120 by 1440 the computed
replacement decodes to 31 bytes while the default search pattern decodes
to 14 bytes, so the two buffers used by the first run of the patcher are
neither equal in length nor is the replacement shorter or equal. -/
theorem C3_counterexample :
    (parse_signature defaultSearchPattern).map List.length = some 14
    ∧ patch_compute 5120 1440 5120 1440
      = some "B8 00 14 00 00 BB 00 5A 00 00 B9 00 00 00 00 BA 00 14 00 00 BE A0 05 00 00 BF 00 14 00 00 90"
    ∧ (parse_signature "B8 00 14 00 00 BB 00 5A 00 00 B9 00 00 00 00 BA 00 14 00 00 BE A0 05 00 00 BF 00 14 00 00 90").map
        List.length = some 31
    ∧ ¬((31 : Nat) = 14)
    ∧ ¬((31 : Nat) ≤ 14) :=
  ⟨by decide, by decide, by decide, by decide, by decide⟩

/-- C3 witness: the amended claim instantiated at the 5120 by 1440
configuration. -/
theorem C3_witness :
    (parse_signature defaultSearchPattern).map List.length = some 14
    ∧ (parse_signature "B8 00 14 00 00 BB 00 5A 00 00 B9 00 00 00 00 BA 00 14 00 00 BE A0 05 00 00 BF 00 14 00 00 90").map
        List.length = some 31 :=
  C3_replacement_31_search_14 5120 1440 5120 1440
    "B8 00 14 00 00 BB 00 5A 00 00 B9 00 00 00 00 BA 00 14 00 00 BE A0 05 00 00 BF 00 14 00 00 90"
    (by decide)

end ValkyriaClaims
